import Mathlib

/-!
Shallow embedding of `src/src/Orbit.js` (haadcode/orbit-core, 292 lines).

The `Orbit` class owns a connection state machine (`_orbitdb`, `_connecting`,
`_user`), a channel registry (`_channels`, `_joiningQueue`), a peer-liveness
poller (`_peers`, `_pollPeersTimer`) and posting operations (`send`,
`addFile`, `_postMessage`, `_getChannelFeed`).

Modelling conventions:
- JS objects used as string-keyed maps become association lists with one
  entry per key (`alGet` / `alSet` / `alDel` mirror property read, property
  assignment and `delete`).
- Collaborator calls (identity creation, `OrbitDB.createInstance`,
  `orbitdb.log`, `feed.add`, `feed.close`, `ipfs.add`) are represented by
  oracle parameters or by fresh ids drawn from a `nextId` counter; their
  outcomes (the ipfs response list, whether the store close succeeds, the
  feed handed to the join continuation) are explicit arguments.
- An `async` function or promise-returning method becomes a function
  returning `Except JsError _` together with the successor state; a JS
  exception thrown by reading a property of `undefined` is `JsError.typeError`,
  an explicit `throw new Error(msg)` / `Promise.reject(new Error(msg))` is
  `JsError.error msg`.
- The asynchronous interior of `join` is split at its suspension point:
  `joinStart` is the synchronous body of `join` (everything that runs before
  control returns to the caller), `joinComplete` is the `.then` continuation
  of `this._orbitdb.log(...)`, and `joinOpenFailed` records that the open
  call rejected (the source installs no rejection handler, so no user code
  runs in that case).
- Promises held in `_joiningQueue` are identified by a numeric promise id so
  that distinct callers receiving the very same promise object is expressible.
- `new Date().getTime()` is an explicit `now : Nat` argument.
-/

namespace OrbitCore

/-- Association-list read: JS property read `obj[k]`; `none` plays `undefined`. -/
def alGet {α : Type} (m : List (String × α)) (k : String) : Option α :=
  match m with
  | [] => none
  | (k', v) :: rest => if k' = k then some v else alGet rest k

/-- Association-list write: JS property assignment `obj[k] = v` (an object keeps a
single entry per key, so an existing entry is replaced in place). -/
def alSet {α : Type} (m : List (String × α)) (k : String) (v : α) : List (String × α) :=
  match m with
  | [] => [(k, v)]
  | (k', v') :: rest => if k' = k then (k, v) :: rest else (k', v') :: alSet rest k v

/-- Association-list removal: JS `delete obj[k]`. -/
def alDel {α : Type} (m : List (String × α)) (k : String) : List (String × α) :=
  match m with
  | [] => []
  | (k', v) :: rest => if k' = k then alDel rest k else (k', v) :: alDel rest k

/-- JS `Object.assign(target, source)`: the entries of `source` are written over
`target` in order, later writes winning. -/
def objAssign {α : Type} (m1 m2 : List (String × α)) : List (String × α) :=
  m2.foldl (fun acc p => alSet acc p.1 p.2) m1

/-- Last element of a list with a default: JS `xs[xs.length - 1]` on a nonempty list. -/
def lastD {α : Type} (d : α) : List α → α
  | [] => d
  | [x] => x
  | _ :: x :: xs => lastD d (x :: xs)

/-- JS `s.split(c)` on the character level: splitting never yields `[]`
(the empty string splits to `[""]`, a trailing separator yields a final `""`). -/
def splitOnChar (c : Char) : List Char → List (List Char)
  | [] => [[]]
  | x :: xs =>
    let r := splitOnChar c xs
    if x = c then [] :: r
    else
      match r with
      | [] => [[x]]
      | y :: ys => (x :: y) :: ys

/-- JS `s.split(sep).pop()` for the path separator: the last segment of the path. -/
def lastSegment (s : String) : String :=
  (lastD [] (splitOnChar (Char.ofNat 47) s.toList)).asString

/-- JS `s.substring(0, n)`: the first `n` characters of `s`. -/
def substringTo (s : String) (n : Nat) : String :=
  (s.toList.take n).asString

/-- JS truthiness of an optional string-valued field: `undefined` and `""` are falsy. -/
def strTruthy : Option String → Bool
  | none => false
  | some s => s != ""

/-! ## Data model -/

/-- The profile built inside `connect` (Orbit.js 79-83). -/
structure Profile where
  name : String
  location : String
  image : Option String
  deriving DecidableEq

/-- `this._user` (Orbit.js 75-84): the identity handle plus the profile. -/
structure User where
  identityId : String
  profile : Profile
  deriving DecidableEq

/-- An opened log feed handed back by the collaborator (`orbitdb.log`). -/
structure Feed where
  id : Nat
  deriving DecidableEq

/-- Modelled from the spec: the `Channel` class lives in `src/Channel.js`, which is
not among the given sources. The spec data model defines a Channel as the channel
name together with the opened log handle, matching the constructor call
`new Channel(this, channelName, feed)` (Orbit.js 136). -/
structure Channel where
  name : String
  feed : Feed
  deriving DecidableEq

/-- Status of the promise stored in `this._joiningQueue[name]`:
`opening cid` — the executor ran and log-open call `cid` is in flight;
`stuckRejected` — `this._orbitdb.log` threw synchronously inside the executor
(store handle `null`), so the stored promise is already rejected;
`stuckOpenFailed cid` — open call `cid` rejected and, the `.then` having no
rejection handler, the stored outer promise can never settle. -/
inductive PendingState
  | opening (openCallId : Nat)
  | stuckRejected
  | stuckOpenFailed (openCallId : Nat)
  deriving DecidableEq

/-- Whether a pending entry can never be completed any more. -/
def isStuck : PendingState → Bool
  | .opening _ => false
  | .stuckRejected => true
  | .stuckOpenFailed _ => true

/-- Events emitted on `this.events` (Orbit.js 98, 114, 138, 157). -/
inductive Event
  | connected (username : String)
  | disconnected
  | joined (name : String)
  | left (name : String)
  deriving DecidableEq

/-- A JS value appearing in a message `meta` object. -/
inductive MetaValue
  | str (s : String)
  | nat (n : Nat)
  | profile (p : Profile)
  deriving DecidableEq

/-- JS truthiness of a metadata value: the number `0` and `""` are falsy. -/
def metaTruthy : MetaValue → Bool
  | .nat n => n != 0
  | .str s => s != ""
  | .profile _ => true

/-- The record appended to a channel feed (`data` in `send` / `addFile`). -/
structure PostData where
  content : String
  meta : List (String × MetaValue)
  deriving DecidableEq

/-- A JS failure: `error msg` is a thrown/rejected `new Error(msg)`;
`typeError` is the `TypeError` raised by reading a property of `undefined`. -/
inductive JsError
  | error (msg : String)
  | typeError
  deriving DecidableEq

/-- The `credentials` argument of `connect`: a bare string or an object whose
`username` property may be absent (Orbit.js 62-73). -/
inductive Credentials
  | str (s : String)
  | obj (username : Option String)
  deriving DecidableEq

/-- `credentials.username` after the string normalisation (Orbit.js 69-71). -/
def credUsername : Credentials → Option String
  | .str s => some s
  | .obj u => u

/-- The `source` argument of `addFile` (Orbit.js 176-186). -/
structure FileSource where
  filename : Option String
  directory : Option String
  buffer : Option (List Nat)
  meta : Option (List (String × MetaValue))
  deriving DecidableEq

/-- One entry of the content-store response of `ipfs.add` (hash plus path). -/
structure IpfsEntry where
  hash : String
  path : String
  deriving DecidableEq

/-- The mutable fields of an `Orbit` instance (Orbit.js 29-40), plus modelling
bookkeeping: `activeTimers` — the interval timers currently running;
`openCalls` — every `this._orbitdb.log(name, options)` call issued, with a fresh
id; `closedFeeds` — every feed on which `.close()` was called; `nextId` — source
of fresh handle/promise/call/timer ids; `events` — the emission log. -/
structure OrbitState where
  orbitdb : Option Nat
  user : Option User
  channels : List (String × Channel)
  peers : List String
  pollPeersTimer : Option Nat
  connecting : Bool
  joiningQueue : List (String × (Nat × PendingState))
  activeTimers : List Nat
  openCalls : List (Nat × String)
  closedFeeds : List Nat
  nextId : Nat
  events : List Event
  deriving DecidableEq

/-- The state built by the constructor (Orbit.js 29-40). -/
def initialState : OrbitState :=
  { orbitdb := none, user := none, channels := [], peers := [], pollPeersTimer := none,
    connecting := false, joiningQueue := [], activeTimers := [], openCalls := [],
    closedFeeds := [], nextId := 0, events := [] }

/-! ## Operations -/

/-- `_startPollingForPeers` (Orbit.js 271-283): allocates the interval timer only
when `this._pollPeersTimer` is unset (`null`/stale handles included: the test is
truthiness of the stored handle, not whether a timer is actually running). -/
def startPollingForPeers (st : OrbitState) : OrbitState :=
  match st.pollPeersTimer with
  | some _ => st
  | none =>
    { st with pollPeersTimer := some st.nextId,
              activeTimers := st.activeTimers ++ [st.nextId],
              nextId := st.nextId + 1 }

/-- `connect` (Orbit.js 62-99). Identity creation and `OrbitDB.createInstance` are
collaborator calls the spec assumes to succeed; the fresh store handle is drawn
from `nextId`. Note that `this._connecting` is set before the username check and
is never reset on a failure path. -/
def connect (st : OrbitState) (creds : Credentials) : OrbitState × Except JsError Unit :=
  if st.orbitdb.isSome then (st, .error (.error "Already connected"))
  else if st.connecting then (st, .error (.error "Already connecting"))
  else
    let st1 := { st with connecting := true }
    match credUsername creds with
    | none => (st1, .error (.error "username not specified"))
    | some uname =>
      if uname = "" then (st1, .error (.error "username not specified"))
      else
        let user : User :=
          { identityId := uname,
            profile := { name := uname, location := "Earth", image := none } }
        let st2 := { st1 with user := some user, orbitdb := some st1.nextId,
                              nextId := st1.nextId + 1 }
        let st3 := startPollingForPeers st2
        ({ st3 with events := st3.events ++ [.connected uname] }, .ok ())

/-- The effect of `if (this._pollPeersTimer) clearInterval(this._pollPeersTimer)`
(Orbit.js 112) on the set of running interval timers. -/
def clearTimer (timer : Option Nat) (timers : List Nat) : List Nat :=
  match timer with
  | some t => timers.filter (fun x => decide (x ≠ t))
  | none => timers

/-- `disconnect` (Orbit.js 101-115). `closeOk` says whether the collaborator call
`this._orbitdb.disconnect()` succeeds; when it throws, the rejection propagates
out of the `async` function and none of the teardown below the `await` runs. On
the success path the interval is cleared but `_pollPeersTimer` keeps the stale
handle, and `_joiningQueue` and `_peers` are not cleared. -/
def disconnect (st : OrbitState) (closeOk : Bool) : OrbitState × Except JsError Unit :=
  match st.orbitdb with
  | none => (st, .ok ())
  | some _ =>
    if closeOk then
      ({ st with orbitdb := none, connecting := false, user := none, channels := [],
                 activeTimers := clearTimer st.pollPeersTimer st.activeTimers,
                 events := st.events ++ [.disconnected] },
       .ok ())
    else (st, .error (.error "store close failed"))

/-- What a single `join(name)` call hands back to its caller (Orbit.js 117-146):
`Promise.reject` on a missing name, `Promise.resolve` of the registered channel,
or the shared promise stored in `this._joiningQueue[name]`, identified by its id. -/
inductive JoinCallResult
  | rejectedNoName
  | resolvedChannel (c : Channel)
  | sharedPromise (promiseId : Nat)
  deriving DecidableEq

/-- The synchronous body of `join` (Orbit.js 117-146). A fresh entry allocates the
promise id `st.nextId`; when the store handle is present the log-open call
`st.nextId + 1` is issued, otherwise `this._orbitdb.log` throws inside the
executor and the stored promise is born rejected (`stuckRejected`). An existing
channel or queue entry is returned without touching anything. -/
def joinStart (st : OrbitState) (name : String) : OrbitState × JoinCallResult :=
  if name = "" then (st, .rejectedNoName)
  else
    match alGet st.channels name with
    | some c => (st, .resolvedChannel c)
    | none =>
      match alGet st.joiningQueue name with
      | some (pid, _) => (st, .sharedPromise pid)
      | none =>
        match st.orbitdb with
        | some _ =>
          ({ st with
               joiningQueue := alSet st.joiningQueue name (st.nextId, .opening (st.nextId + 1)),
               openCalls := st.openCalls ++ [(st.nextId + 1, name)],
               nextId := st.nextId + 2 },
           .sharedPromise st.nextId)
        | none =>
          ({ st with
               joiningQueue := alSet st.joiningQueue name (st.nextId, .stuckRejected),
               nextId := st.nextId + 1 },
           .sharedPromise st.nextId)

/-- The `.then` continuation of `this._orbitdb.log(...)` (Orbit.js 135-141): store
the channel, emit `joined`, delete the queue entry, resolve the shared promise.
The returned `Option Channel` is the value every waiter of that promise receives.
It only fires for an entry whose open call is still in flight. -/
def joinComplete (st : OrbitState) (name : String) (feed : Feed) :
    OrbitState × Option Channel :=
  match alGet st.joiningQueue name with
  | some (_, .opening _) =>
    let ch : Channel := { name := name, feed := feed }
    ({ st with channels := alSet st.channels name ch,
               events := st.events ++ [.joined name],
               joiningQueue := alDel st.joiningQueue name },
     some ch)
  | _ => (st, none)

/-- The open call for `name` rejects. The source installs no rejection handler on
`.then` (Orbit.js 135), so no program code runs: the queue entry and the
never-settling outer promise remain. The status change to `stuckOpenFailed` is
bookkeeping recording that no completion can arrive any more. -/
def joinOpenFailed (st : OrbitState) (name : String) : OrbitState :=
  match alGet st.joiningQueue name with
  | some (pid, .opening cid) =>
    { st with joiningQueue := alSet st.joiningQueue name (pid, .stuckOpenFailed cid) }
  | _ => st

/-- `n` calls of `join(name)` issued back to back, none of the open calls having
completed in between (cooperative interleaving: each call runs its synchronous
body to the return). -/
def joinStartN (st : OrbitState) (name : String) : Nat → OrbitState × List JoinCallResult
  | 0 => (st, [])
  | n + 1 =>
    let r1 := joinStart st name
    let rn := joinStartN r1.1 name n
    (rn.1, r1.2 :: rn.2)

/-- `leave` (Orbit.js 148-158): close the feed and drop the registry entry when
present, and emit `left` unconditionally. `feed.close()` is a collaborator call
assumed to succeed. -/
def leave (st : OrbitState) (name : String) : OrbitState :=
  match alGet st.channels name with
  | some ch =>
    { st with closedFeeds := st.closedFeeds ++ [ch.feed.id],
              channels := alDel st.channels name,
              events := st.events ++ [.left name] }
  | none => { st with events := st.events ++ [.left name] }

/-- `_getChannelFeed` (Orbit.js 264-269). When `name` is absent from
`this.channels`, the read `this.channels[channelName].feed` is a property access
on `undefined` and throws a `TypeError` before the `Have not joined` guard is
reached; a present channel always carries the feed it was constructed with
(Orbit.js 136), so the guard never fires. -/
def getChannelFeed (st : OrbitState) (name : String) : Except JsError Feed :=
  if name = "" then .error (.error "Channel not specified")
  else
    match alGet st.channels name with
    | none => .error .typeError
    | some ch => .ok ch.feed

/-- `_postMessage` (Orbit.js 259-262). `feed.add(data)` is the collaborator
append; the entry reference it returns is represented by the appended record
itself. -/
def postMessage (st : OrbitState) (name : String) (data : PostData) :
    Except JsError PostData :=
  match getChannelFeed st name with
  | .error e => .error e
  | .ok _ => .ok data

/-- `send` (Orbit.js 160-173); `now` is `new Date().getTime()`. -/
def send (st : OrbitState) (name msg : String) (now : Nat) : Except JsError PostData :=
  if name = "" then .error (.error "Channel must be specified")
  else if msg = "" then .error (.error "Cant send an empty message")
  else
    match st.user with
    | none => .error (.error "Something went wrong: user is undefined")
    | some u =>
      postMessage st name
        { content := substringTo msg 2048,
          meta := [("from", .profile u.profile), ("type", .str "text"), ("ts", .nat now)] }

/-- The expected leaf name computed by `addFile` (Orbit.js 211-213): last path
segment of `source.directory` when that is truthy, else of `source.filename`
(which the guard makes truthy in that branch). -/
def expectedLeaf (source : FileSource) : String :=
  if strTruthy source.directory then lastSegment (source.directory.getD "")
  else lastSegment (source.filename.getD "")

/-- The `size` default of `addFile` (Orbit.js 214): `source.meta && source.meta.size`
must be truthy, otherwise `0`. -/
def metaSize (source : FileSource) : MetaValue :=
  match source.meta with
  | none => .nat 0
  | some m =>
    match alGet m "size" with
    | some v => if metaTruthy v then v else .nat 0
    | none => .nat 0

/-- The message record `addFile` builds (Orbit.js 233-244): the content identifier
as `content`, and `Object.assign({from, type, ts}, {size, name}, source.meta)`. -/
def addFileData (u : User) (isDirectory : Bool) (hash : String) (size : MetaValue)
    (name : String) (srcMeta : List (String × MetaValue)) (now : Nat) : PostData :=
  { content := hash,
    meta := objAssign (objAssign
      [("from", .profile u.profile),
       ("type", .str (if isDirectory then "directory" else "file")),
       ("ts", .nat now)]
      [("size", size), ("name", .str name)]) srcMeta }

/-- `addFile` (Orbit.js 187-247). `ipfsResult` is the collaborator response of
`this._ipfs.add(...)`, a list of `{hash, path}` entries. Buffer ingestion
(`_addToIpfsJs`, chosen when `source.buffer && source.filename` is truthy) takes
the first entry and is never a directory; path ingestion (`_addToIpfsGo`) treats
the submission as a directory exactly when the last path segment of the first
entry differs from the expected leaf name, and then uses the last entry. An empty
response makes `result[0]` `undefined` and its property read a `TypeError`, as
does `this.user.profile` when no session exists. -/
def addFile (st : OrbitState) (channelName : String) (source? : Option FileSource)
    (ipfsResult : List IpfsEntry) (now : Nat) : Except JsError PostData :=
  match source? with
  | none => .error (.error "Filename or directory not specified")
  | some source =>
    if strTruthy source.filename || strTruthy source.directory then
      let name := expectedLeaf source
      let isBuffer := source.buffer.isSome && strTruthy source.filename
      match ipfsResult with
      | [] => .error .typeError
      | e0 :: rest =>
        let upload : String × Bool :=
          if isBuffer then (e0.hash, false)
          else
            let isDirectory := lastSegment e0.path != name
            ((if isDirectory then (lastD e0 (e0 :: rest)).hash else e0.hash), isDirectory)
        match st.user with
        | none => .error .typeError
        | some u =>
          postMessage st channelName
            (addFileData u upload.2 upload.1 (metaSize source) name
              (source.meta.getD []) now)
    else .error (.error "Filename or directory not specified")

/-- The key list of an association map (the object property names, in order). -/
def alKeys {α : Type} : List (String × α) → List String
  | [] => []
  | (k, _) :: rest => k :: alKeys rest

/-! ## Association-list lemmas -/

theorem alGet_alSet_self {α : Type} (m : List (String × α)) (k : String) (v : α) :
    alGet (alSet m k v) k = some v := by
  induction m with
  | nil => simp [alSet, alGet]
  | cons p rest ih =>
    obtain ⟨a, b⟩ := p
    by_cases ha : a = k
    · subst ha
      simp [alSet, alGet]
    · simp [alSet, alGet, ha, ih]

theorem alGet_alSet_ne {α : Type} (m : List (String × α)) (k' k : String) (v : α)
    (h : k' ≠ k) : alGet (alSet m k' v) k = alGet m k := by
  induction m with
  | nil => simp [alSet, alGet, h]
  | cons p rest ih =>
    obtain ⟨a, b⟩ := p
    by_cases ha : a = k'
    · subst ha
      simp [alSet, alGet, h]
    · by_cases hak : a = k
      · subst hak
        simp [alSet, alGet, ha]
      · simp [alSet, alGet, ha, hak, ih]

theorem alGet_alDel_self {α : Type} (m : List (String × α)) (k : String) :
    alGet (alDel m k) k = none := by
  induction m with
  | nil => rfl
  | cons p rest ih =>
    obtain ⟨a, b⟩ := p
    by_cases ha : a = k
    · simp [alDel, ha, ih]
    · simp [alDel, alGet, ha, ih]

theorem alGet_alDel_ne {α : Type} (m : List (String × α)) (k' k : String)
    (h : k' ≠ k) : alGet (alDel m k') k = alGet m k := by
  induction m with
  | nil => rfl
  | cons p rest ih =>
    obtain ⟨a, b⟩ := p
    by_cases ha : a = k'
    · subst ha
      simp [alDel, alGet, h, ih]
    · by_cases hak : a = k
      · subst hak
        simp [alDel, alGet, ha, Ne.symm h, ih]
      · simp [alDel, alGet, ha, hak, ih]

theorem alGet_eq_none_of_not_mem {α : Type} (m : List (String × α)) (k : String)
    (h : k ∉ alKeys m) : alGet m k = none := by
  induction m with
  | nil => rfl
  | cons p rest ih =>
    obtain ⟨a, b⟩ := p
    simp only [alKeys, List.mem_cons] at h
    push_neg at h
    have ha : ¬ a = k := fun hk => h.1 hk.symm
    simp [alGet, ha, ih h.2]

theorem mem_alKeys_alSet {α : Type} (m : List (String × α)) (k x : String) (v : α)
    (h : x ∈ alKeys (alSet m k v)) : x = k ∨ x ∈ alKeys m := by
  induction m with
  | nil =>
    simp [alSet, alKeys] at h
    exact Or.inl h
  | cons p rest ih =>
    obtain ⟨a, b⟩ := p
    by_cases ha : a = k
    · subst ha
      simp [alSet, alKeys] at h ⊢
      tauto
    · simp [alSet, alKeys, ha] at h ⊢
      tauto

theorem nodup_alKeys_alSet {α : Type} (m : List (String × α)) (k : String) (v : α)
    (h : (alKeys m).Nodup) : (alKeys (alSet m k v)).Nodup := by
  induction m with
  | nil => simp [alSet, alKeys]
  | cons p rest ih =>
    obtain ⟨a, b⟩ := p
    simp only [alKeys, List.nodup_cons] at h
    by_cases ha : a = k
    · subst ha
      simp only [alSet, if_pos rfl]
      simp only [alKeys, List.nodup_cons]
      exact h
    · simp only [alSet, if_neg ha]
      simp only [alKeys, List.nodup_cons]
      refine ⟨fun hmem => ?_, ih h.2⟩
      rcases mem_alKeys_alSet rest k a v hmem with h1 | h1
      · exact ha h1
      · exact h.1 h1

theorem mem_alKeys_alDel {α : Type} (m : List (String × α)) (k x : String)
    (h : x ∈ alKeys (alDel m k)) : x ∈ alKeys m := by
  induction m with
  | nil =>
    simp [alDel, alKeys] at h
  | cons p rest ih =>
    obtain ⟨a, b⟩ := p
    by_cases ha : a = k
    · simp only [alDel, if_pos ha] at h
      simp only [alKeys, List.mem_cons]
      exact Or.inr (ih h)
    · simp only [alDel, if_neg ha] at h
      simp only [alKeys, List.mem_cons] at h ⊢
      tauto

theorem nodup_alKeys_alDel {α : Type} (m : List (String × α)) (k : String)
    (h : (alKeys m).Nodup) : (alKeys (alDel m k)).Nodup := by
  induction m with
  | nil => simp [alDel, alKeys]
  | cons p rest ih =>
    obtain ⟨a, b⟩ := p
    simp only [alKeys, List.nodup_cons] at h
    by_cases ha : a = k
    · simp only [alDel, if_pos ha]
      exact ih h.2
    · simp only [alDel, if_neg ha]
      simp only [alKeys, List.nodup_cons]
      exact ⟨fun hmem => h.1 (mem_alKeys_alDel rest k a hmem), ih h.2⟩

theorem objAssign_cons {α : Type} (m1 : List (String × α)) (a : String) (b : α)
    (rest : List (String × α)) :
    objAssign m1 ((a, b) :: rest) = objAssign (alSet m1 a b) rest := rfl

theorem objAssign_get_none {α : Type} (m2 m1 : List (String × α)) (k : String)
    (h : alGet m2 k = none) : alGet (objAssign m1 m2) k = alGet m1 k := by
  induction m2 generalizing m1 with
  | nil => rfl
  | cons p rest ih =>
    obtain ⟨a, b⟩ := p
    have ha : ¬ a = k := by
      intro hak
      simp [alGet, hak] at h
    have hr : alGet rest k = none := by
      simp [alGet, ha] at h
      exact h
    rw [objAssign_cons, ih _ hr, alGet_alSet_ne _ _ _ _ ha]

theorem objAssign_get_some {α : Type} (m2 m1 : List (String × α)) (k : String) (v : α)
    (hnd : (alKeys m2).Nodup) (h : alGet m2 k = some v) :
    alGet (objAssign m1 m2) k = some v := by
  induction m2 generalizing m1 with
  | nil => simp [alGet] at h
  | cons p rest ih =>
    obtain ⟨a, b⟩ := p
    simp only [alKeys, List.nodup_cons] at hnd
    by_cases hak : a = k
    · subst hak
      have hb : b = v := by
        simp [alGet] at h
        exact h
      subst hb
      have hr : alGet rest a = none := alGet_eq_none_of_not_mem rest a hnd.1
      rw [objAssign_cons, objAssign_get_none _ _ _ hr, alGet_alSet_self]
    · have hr : alGet rest k = some v := by
        simp [alGet, hak] at h
        exact h
      rw [objAssign_cons]
      exact ih _ hnd.2 hr

/-! ## Instrumentation: step language and observations -/

/-- The events of a cooperative trace that can touch an instance's shared state:
the synchronous body of a `join`, a join continuation firing (successfully or
not), `leave`, `connect` and `disconnect`. `send` / `addFile` / `_postMessage`
mutate no registry state and so are omitted. -/
inductive Step
  | jStart (name : String)
  | jComplete (name : String) (feed : Feed)
  | jOpenFail (name : String)
  | doLeave (name : String)
  | doConnect (creds : Credentials)
  | doDisconnect (closeOk : Bool)
  deriving DecidableEq

/-- Execute one step (discarding the value handed to the caller). -/
def stepRun (st : OrbitState) : Step → OrbitState
  | .jStart name => (joinStart st name).1
  | .jComplete name feed => (joinComplete st name feed).1
  | .jOpenFail name => joinOpenFailed st name
  | .doLeave name => leave st name
  | .doConnect creds => (connect st creds).1
  | .doDisconnect ok => (disconnect st ok).1

/-- Execute a list of steps in order. -/
def run (st : OrbitState) : List Step → OrbitState
  | [] => st
  | s :: rest => run (stepRun st s) rest

/-- The log-open calls issued so far for a given channel name. -/
def openCallsFor (st : OrbitState) (name : String) : List (Nat × String) :=
  st.openCalls.filter (fun c => decide (c.2 = name))

/-- How many times `joined(name, _)` has been emitted. -/
def countJoined (evs : List Event) (name : String) : Nat :=
  (evs.filter (fun e => decide (e = Event.joined name))).length

/-- Whether an optional queue entry is the pending join `pid` in a stuck state. -/
def entryStuck (e : Option (Nat × PendingState)) (pid : Nat) : Bool :=
  match e with
  | some (p, s) => p == pid && isStuck s
  | none => false

/-- `name` maps to the stuck pending join `pid` and has no registered channel. -/
def stuckEntry (st : OrbitState) (name : String) (pid : Nat) : Bool :=
  entryStuck (alGet st.joiningQueue name) pid && (alGet st.channels name).isNone

/-! ## Unfolding lemmas for the join operations -/

theorem joinStart_shared (st : OrbitState) (name : String) (pid : Nat) (ps : PendingState)
    (hn : name ≠ "") (hch : alGet st.channels name = none)
    (hq : alGet st.joiningQueue name = some (pid, ps)) :
    joinStart st name = (st, .sharedPromise pid) := by
  simp [joinStart, hn, hch, hq]

theorem joinStartN_shared (n : Nat) (st : OrbitState) (name : String) (pid : Nat)
    (ps : PendingState) (hn : name ≠ "") (hch : alGet st.channels name = none)
    (hq : alGet st.joiningQueue name = some (pid, ps)) :
    joinStartN st name n = (st, List.replicate n (.sharedPromise pid)) := by
  induction n with
  | zero => rfl
  | succ m ih =>
    simp [joinStartN, joinStart_shared st name pid ps hn hch hq, ih, List.replicate]

theorem joinStart_fresh_connected (st : OrbitState) (name : String) (hdl : Nat)
    (hn : name ≠ "") (hdb : st.orbitdb = some hdl)
    (hch : alGet st.channels name = none) (hq : alGet st.joiningQueue name = none) :
    joinStart st name =
      ({ st with
           joiningQueue := alSet st.joiningQueue name (st.nextId, .opening (st.nextId + 1)),
           openCalls := st.openCalls ++ [(st.nextId + 1, name)],
           nextId := st.nextId + 2 },
       .sharedPromise st.nextId) := by
  simp [joinStart, hn, hch, hq, hdb]

theorem joinStart_fresh_disconnected (st : OrbitState) (name : String)
    (hn : name ≠ "") (hdb : st.orbitdb = none)
    (hch : alGet st.channels name = none) (hq : alGet st.joiningQueue name = none) :
    joinStart st name =
      ({ st with
           joiningQueue := alSet st.joiningQueue name (st.nextId, .stuckRejected),
           nextId := st.nextId + 1 },
       .sharedPromise st.nextId) := by
  simp [joinStart, hn, hch, hq, hdb]

theorem joinComplete_opening (st : OrbitState) (name : String) (feed : Feed)
    (pid cid : Nat) (hq : alGet st.joiningQueue name = some (pid, .opening cid)) :
    joinComplete st name feed =
      ({ st with channels := alSet st.channels name { name := name, feed := feed },
                 events := st.events ++ [.joined name],
                 joiningQueue := alDel st.joiningQueue name },
       some { name := name, feed := feed }) := by
  simp [joinComplete, hq]

theorem joinOpenFailed_opening (st : OrbitState) (n2 : String) (p2 cid2 : Nat)
    (hq2 : alGet st.joiningQueue n2 = some (p2, .opening cid2)) :
    joinOpenFailed st n2 =
      { st with joiningQueue := alSet st.joiningQueue n2 (p2, .stuckOpenFailed cid2) } := by
  simp [joinOpenFailed, hq2]

theorem leave_present (st : OrbitState) (n2 : String) (ch2 : Channel)
    (hc2 : alGet st.channels n2 = some ch2) :
    leave st n2 =
      { st with closedFeeds := st.closedFeeds ++ [ch2.feed.id],
                channels := alDel st.channels n2,
                events := st.events ++ [.left n2] } := by
  simp [leave, hc2]

theorem leave_absent (st : OrbitState) (n2 : String)
    (hc2 : alGet st.channels n2 = none) :
    leave st n2 = { st with events := st.events ++ [.left n2] } := by
  simp [leave, hc2]

theorem countJoined_append_other (evs : List Event) (e : Event) (name : String)
    (h : e ≠ Event.joined name) :
    countJoined (evs ++ [e]) name = countJoined evs name := by
  unfold countJoined
  rw [List.filter_append]
  simp [h]

theorem startPollingForPeers_registry (st : OrbitState) :
    (startPollingForPeers st).joiningQueue = st.joiningQueue ∧
    (startPollingForPeers st).channels = st.channels ∧
    (startPollingForPeers st).openCalls = st.openCalls ∧
    (startPollingForPeers st).events = st.events := by
  unfold startPollingForPeers
  rcases st.pollPeersTimer with _ | t <;> simp

theorem connect_registry (st : OrbitState) (creds : Credentials) (name : String) :
    (connect st creds).1.joiningQueue = st.joiningQueue ∧
    (connect st creds).1.channels = st.channels ∧
    (connect st creds).1.openCalls = st.openCalls ∧
    countJoined (connect st creds).1.events name = countJoined st.events name := by
  unfold connect
  by_cases h1 : st.orbitdb.isSome
  · simp [h1]
  · by_cases h2 : st.connecting
    · simp [h1, h2]
    · rcases hcu : credUsername creds with _ | u
      · simp [h1, h2, hcu]
      · by_cases hu : u = ""
        · simp [h1, h2, hcu, hu]
        · obtain ⟨g1, g2, g3, g4⟩ := startPollingForPeers_registry
            { st with connecting := true,
                      user := some { identityId := u,
                                     profile := { name := u, location := "Earth", image := none } },
                      orbitdb := some st.nextId, nextId := st.nextId + 1 }
          simp [h1, h2, hcu, hu, g1, g2, g3, g4]
          exact countJoined_append_other st.events (Event.connected u) name (by simp)

theorem stuckEntry_elim (st : OrbitState) (name : String) (pid : Nat)
    (h : stuckEntry st name pid = true) :
    (∃ s, alGet st.joiningQueue name = some (pid, s) ∧ isStuck s = true) ∧
      alGet st.channels name = none := by
  unfold stuckEntry entryStuck at h
  rw [Bool.and_eq_true] at h
  obtain ⟨h1, h2⟩ := h
  rw [Option.isNone_iff_eq_none] at h2
  refine ⟨?_, h2⟩
  rcases hq : alGet st.joiningQueue name with _ | e
  · rw [hq] at h1
    simp at h1
  · obtain ⟨p, s⟩ := e
    rw [hq] at h1
    simp only [Bool.and_eq_true, beq_iff_eq] at h1
    obtain ⟨hp, hs⟩ := h1
    subst hp
    exact ⟨s, rfl, hs⟩

theorem stuckEntry_intro (st : OrbitState) (name : String) (pid : Nat) (s : PendingState)
    (hq : alGet st.joiningQueue name = some (pid, s)) (hs : isStuck s = true)
    (hch : alGet st.channels name = none) : stuckEntry st name pid = true := by
  unfold stuckEntry entryStuck
  rw [hq, hch]
  simp [hs]

theorem stuck_preserved_step (st : OrbitState) (name : String) (pid : Nat) (s : Step)
    (h : stuckEntry st name pid = true) :
    stuckEntry (stepRun st s) name pid = true ∧
    openCallsFor (stepRun st s) name = openCallsFor st name ∧
    countJoined (stepRun st s).events name = countJoined st.events name := by
  obtain ⟨⟨ps, hq, hps⟩, hch⟩ := stuckEntry_elim st name pid h
  cases s with
  | jStart n2 =>
    simp only [stepRun]
    by_cases h0 : n2 = ""
    · simp [joinStart, h0, h]
    · rcases hc2 : alGet st.channels n2 with _ | c2
      · rcases hq2 : alGet st.joiningQueue n2 with _ | e2
        · have hne : n2 ≠ name := by
            intro he
            rw [he, hq] at hq2
            exact Option.noConfusion hq2
          rcases hdb : st.orbitdb with _ | hdl
          · rw [joinStart_fresh_disconnected st n2 h0 hdb hc2 hq2]
            exact ⟨stuckEntry_intro _ _ _ ps
              ((alGet_alSet_ne _ _ _ _ hne).trans hq) hps hch, rfl, rfl⟩
          · rw [joinStart_fresh_connected st n2 hdl h0 hdb hc2 hq2]
            refine ⟨stuckEntry_intro _ _ _ ps
              ((alGet_alSet_ne _ _ _ _ hne).trans hq) hps hch, ?_, rfl⟩
            unfold openCallsFor
            show (st.openCalls ++ [(st.nextId + 1, n2)]).filter _ = _
            rw [List.filter_append]
            simp [hne]
        · obtain ⟨p2, s2⟩ := e2
          rw [joinStart_shared st n2 p2 s2 h0 hc2 hq2]
          exact ⟨h, rfl, rfl⟩
      · simp [joinStart, h0, hc2, h]
  | jComplete n2 f =>
    simp only [stepRun]
    rcases hq2 : alGet st.joiningQueue n2 with _ | e2
    · simp [joinComplete, hq2, h]
    · obtain ⟨p2, s2⟩ := e2
      cases s2 with
      | opening cid2 =>
        have hne : n2 ≠ name := by
          intro he
          rw [he, hq] at hq2
          simp only [Option.some.injEq, Prod.mk.injEq] at hq2
          rw [hq2.2] at hps
          simp [isStuck] at hps
        rw [joinComplete_opening st n2 f p2 cid2 hq2]
        refine ⟨stuckEntry_intro _ _ _ ps
          ((alGet_alDel_ne _ _ _ hne).trans hq) hps
          ((alGet_alSet_ne _ _ _ _ hne).trans hch), rfl, ?_⟩
        exact countJoined_append_other _ _ _ (by simp [hne])
      | stuckRejected => simp [joinComplete, hq2, h]
      | stuckOpenFailed cid2 => simp [joinComplete, hq2, h]
  | jOpenFail n2 =>
    simp only [stepRun]
    rcases hq2 : alGet st.joiningQueue n2 with _ | e2
    · simp [joinOpenFailed, hq2, h]
    · obtain ⟨p2, s2⟩ := e2
      cases s2 with
      | opening cid2 =>
        have hne : n2 ≠ name := by
          intro he
          rw [he, hq] at hq2
          simp only [Option.some.injEq, Prod.mk.injEq] at hq2
          rw [hq2.2] at hps
          simp [isStuck] at hps
        rw [joinOpenFailed_opening st n2 p2 cid2 hq2]
        exact ⟨stuckEntry_intro _ _ _ ps
          ((alGet_alSet_ne _ _ _ _ hne).trans hq) hps hch, rfl, rfl⟩
      | stuckRejected => simp [joinOpenFailed, hq2, h]
      | stuckOpenFailed cid2 => simp [joinOpenFailed, hq2, h]
  | doLeave n2 =>
    simp only [stepRun]
    rcases hc2 : alGet st.channels n2 with _ | ch2
    · rw [leave_absent st n2 hc2]
      exact ⟨stuckEntry_intro _ _ _ ps hq hps hch, rfl,
        countJoined_append_other _ _ _ (by simp)⟩
    · have hne : n2 ≠ name := by
        intro he
        rw [he, hch] at hc2
        exact Option.noConfusion hc2
      rw [leave_present st n2 ch2 hc2]
      exact ⟨stuckEntry_intro _ _ _ ps hq hps
        ((alGet_alDel_ne _ _ _ hne).trans hch), rfl,
        countJoined_append_other _ _ _ (by simp)⟩
  | doConnect creds =>
    simp only [stepRun]
    obtain ⟨g1, g2, g3, g4⟩ := connect_registry st creds name
    have he : stuckEntry (connect st creds).1 name pid = stuckEntry st name pid := by
      unfold stuckEntry
      rw [g1, g2]
    have ho : openCallsFor (connect st creds).1 name = openCallsFor st name := by
      unfold openCallsFor
      rw [g3]
    exact ⟨he.symm ▸ h, ho, g4⟩
  | doDisconnect ok =>
    simp only [stepRun]
    rcases hdb : st.orbitdb with _ | hdl
    · simp [disconnect, hdb, h]
    · cases ok with
      | false => simp [disconnect, hdb, h]
      | true =>
        simp only [disconnect, hdb, if_pos]
        exact ⟨stuckEntry_intro _ _ _ ps hq hps rfl, rfl,
          countJoined_append_other _ _ _ (by simp)⟩

theorem stuck_preserved_run (steps : List Step) (st : OrbitState) (name : String)
    (pid : Nat) (h : stuckEntry st name pid = true) :
    stuckEntry (run st steps) name pid = true ∧
    openCallsFor (run st steps) name = openCallsFor st name ∧
    countJoined (run st steps).events name = countJoined st.events name := by
  induction steps generalizing st with
  | nil => exact ⟨h, rfl, rfl⟩
  | cons s rest ih =>
    obtain ⟨h1, h2, h3⟩ := stuck_preserved_step st name pid s h
    obtain ⟨g1, g2, g3⟩ := ih _ h1
    exact ⟨g1, g2.trans h2, g3.trans h3⟩

theorem joinStart_of_stuck (st : OrbitState) (name : String) (pid : Nat)
    (hn : name ≠ "") (h : stuckEntry st name pid = true) :
    joinStart st name = (st, .sharedPromise pid) := by
  obtain ⟨⟨ps, hq, hps⟩, hch⟩ := stuckEntry_elim st name pid h
  exact joinStart_shared st name pid ps hn hch hq

/-! ## Posting lemmas -/

theorem postMessage_ok (st : OrbitState) (cn : String) (data : PostData) (ch : Channel)
    (hcn : cn ≠ "") (hch : alGet st.channels cn = some ch) :
    postMessage st cn data = .ok data := by
  simp [postMessage, getChannelFeed, hcn, hch]

theorem send_ok (st : OrbitState) (name msg : String) (now : Nat) (u : User) (ch : Channel)
    (hu : st.user = some u) (hch : alGet st.channels name = some ch)
    (hname : name ≠ "") (hmsg : msg ≠ "") :
    send st name msg now = .ok
      { content := substringTo msg 2048,
        meta := [("from", .profile u.profile), ("type", .str "text"), ("ts", .nat now)] } := by
  simp [send, hname, hmsg, hu, postMessage, getChannelFeed, hch]

/-- The directory flag `addFile` computes for a source and the first response entry. -/
def uploadIsDir (source : FileSource) (e0 : IpfsEntry) : Bool :=
  if source.buffer.isSome && strTruthy source.filename then false
  else lastSegment e0.path != expectedLeaf source

/-- The content identifier `addFile` selects from the response. -/
def uploadHash (source : FileSource) (e0 : IpfsEntry) (rest : List IpfsEntry) : String :=
  if source.buffer.isSome && strTruthy source.filename then e0.hash
  else if lastSegment e0.path != expectedLeaf source then (lastD e0 (e0 :: rest)).hash
  else e0.hash

theorem addFile_unfold (st : OrbitState) (cn : String) (source : FileSource)
    (e0 : IpfsEntry) (rest : List IpfsEntry) (now : Nat) (u : User)
    (hu : st.user = some u)
    (hsrc : (strTruthy source.filename || strTruthy source.directory) = true) :
    addFile st cn (some source) (e0 :: rest) now =
      postMessage st cn (addFileData u (uploadIsDir source e0) (uploadHash source e0 rest)
        (metaSize source) (expectedLeaf source) (source.meta.getD []) now) := by
  by_cases hb : (source.buffer.isSome && strTruthy source.filename) = true
  · simp [addFile, hsrc, hu, hb, uploadIsDir, uploadHash]
  · by_cases hd : (lastSegment e0.path != expectedLeaf source) = true
    · simp [addFile, hsrc, hu, hb, hd, uploadIsDir, uploadHash]
    · simp [addFile, hsrc, hu, hb, hd, uploadIsDir, uploadHash]

theorem addFileData_type (u : User) (iD : Bool) (hs : String) (sz : MetaValue) (nm : String)
    (sm : List (String × MetaValue)) (now : Nat) (hno : alGet sm "type" = none) :
    alGet (addFileData u iD hs sz nm sm now).meta "type"
      = some (.str (if iD then "directory" else "file")) := by
  unfold addFileData
  rw [objAssign_get_none _ _ _ hno,
      objAssign_get_none [("size", sz), ("name", MetaValue.str nm)] _ "type" rfl]
  rfl

/-! ## String lemmas -/

theorem substringTo_length (s : String) (n : Nat) :
    (substringTo s n).length = min n s.length := by
  show (s.data.take n).length = min n s.data.length
  exact List.length_take _ _

theorem substringTo_of_le (s : String) (n : Nat) (h : s.length ≤ n) :
    substringTo s n = s := by
  show (s.data.take n).asString = s
  rw [List.take_of_length_le h]
  rfl

/-! ## Concrete scenario states -/

/-- The profile `connect` builds for the username `alice`. -/
def aliceProfile : Profile := { name := "alice", location := "Earth", image := none }

/-- The session user for `alice`. -/
def aliceUser : User := { identityId := "alice", profile := aliceProfile }

/-- An instance freshly connected as `alice`, no channels joined. -/
def stConnected : OrbitState := (connect initialState (.str "alice")).1

/-- `stConnected` after a `join("general")` completed with the feed `7`. -/
def stJoined : OrbitState :=
  (joinComplete (joinStart stConnected "general").1 "general" { id := 7 }).1

/-- A reconnect after a clean disconnect: `alice` connects, disconnects, `bob` connects. -/
def stReconnected : OrbitState :=
  (connect (disconnect stConnected true).1 (.str "bob")).1

/-! ## Claims -/

/-- C2, counterexample: `connect({})` fails with the username error but leaves
`_connecting` set, so a following `connect("alice")` with valid credentials is
rejected with `Already connecting` — the state machine is stuck in Connecting,
contrary to the claim. -/
theorem c2_counterexample :
    (connect initialState (.obj none)).2 = .error (.error "username not specified") ∧
    (connect (connect initialState (.obj none)).1 (.str "alice")).2 =
      .error (.error "Already connecting") := ⟨rfl, rfl⟩

/-- C2, amended: after any failed `connect` whose credentials do not resolve to a
non-empty username, the Connection State Machine IS left stuck in Connecting:
the `_connecting` flag stays set (Orbit.js 65 is never rolled back), and every
subsequent `connect` — valid credentials included — fails with
`Already connecting`. -/
theorem c2_connect_failure_leaves_connecting (st : OrbitState) (creds creds2 : Credentials)
    (h0 : st.orbitdb = none) (h1 : st.connecting = false)
    (h2 : strTruthy (credUsername creds) = false) :
    (connect st creds).2 = .error (.error "username not specified") ∧
    (connect st creds).1.connecting = true ∧
    connect (connect st creds).1 creds2 =
      ((connect st creds).1, .error (.error "Already connecting")) := by
  have hno : ¬ st.orbitdb.isSome = true := by simp [h0]
  have hcf : ¬ st.connecting = true := by simp [h1]
  rcases hcu : credUsername creds with _ | u
  · simp [connect, hno, hcf, hcu, h0]
  · have hu : u = "" := by
      simp [strTruthy, hcu] at h2
      exact h2
    simp [connect, hno, hcf, hcu, hu, h0]

/-- C2, witness for the amended theorem at `connect({})` then `connect("alice")`. -/
theorem c2_connect_failure_leaves_connecting_witness :
    (connect initialState (.obj none)).2 = .error (.error "username not specified") ∧
    (connect initialState (.obj none)).1.connecting = true ∧
    connect (connect initialState (.obj none)).1 (.str "alice") =
      ((connect initialState (.obj none)).1, .error (.error "Already connecting")) :=
  c2_connect_failure_leaves_connecting initialState (.obj none) (.str "alice") rfl rfl rfl

/-- C3, counterexample: with `alice` connected and `general` joined, a failing
collaborator close makes `disconnect` reject with the close error and perform no
teardown at all: the state (session, channel map, events) is exactly as before,
so no `disconnected` event is emitted and the channels are not cleared. -/
theorem c3_counterexample :
    (disconnect stJoined false).2 = .error (.error "store close failed") ∧
    (disconnect stJoined false).1 = stJoined ∧
    alGet stJoined.channels "general" = some { name := "general", feed := { id := 7 } } ∧
    stJoined.user = some aliceUser := ⟨rfl, rfl, rfl, rfl⟩

/-- C3, amended: `disconnect()` is a no-op when already disconnected; when
connected and the collaborator close succeeds, teardown completes (store handle,
session and channels cleared, connecting flag reset, interval cleared,
`disconnected` emitted); but when the close raises, the error propagates to the
caller (Orbit.js 106 is not guarded) and no teardown happens. -/
theorem c3_disconnect_error_propagates (st : OrbitState) (hdl : Nat)
    (hdb : st.orbitdb = some hdl) :
    disconnect st false = (st, .error (.error "store close failed")) ∧
    (disconnect st true).1.orbitdb = none ∧
    (disconnect st true).1.user = none ∧
    (disconnect st true).1.channels = [] ∧
    (disconnect st true).1.connecting = false ∧
    (disconnect st true).1.activeTimers = clearTimer st.pollPeersTimer st.activeTimers ∧
    (disconnect st true).1.events = st.events ++ [.disconnected] ∧
    (disconnect st true).2 = .ok () ∧
    ∀ st2 : OrbitState, ∀ ok : Bool, st2.orbitdb = none → disconnect st2 ok = (st2, .ok ()) := by
  refine ⟨?_, ?_, ?_, ?_, ?_, ?_, ?_, ?_, ?_⟩
  · simp [disconnect, hdb]
  · simp [disconnect, hdb]
  · simp [disconnect, hdb]
  · simp [disconnect, hdb]
  · simp [disconnect, hdb]
  · simp [disconnect, hdb]
  · simp [disconnect, hdb]
  · simp [disconnect, hdb]
  · intro st2 ok h2
    simp [disconnect, h2]

/-- C3, witness for the amended theorem at the joined `alice` session. -/
theorem c3_disconnect_error_propagates_witness :
    disconnect stJoined false = (stJoined, .error (.error "store close failed")) ∧
    (disconnect stJoined true).1.channels = [] ∧
    (disconnect stJoined true).1.events = stJoined.events ++ [.disconnected] :=
  ⟨(c3_disconnect_error_propagates stJoined 0 rfl).1,
   (c3_disconnect_error_propagates stJoined 0 rfl).2.2.2.1,
   (c3_disconnect_error_propagates stJoined 0 rfl).2.2.2.2.2.2.1⟩

/-- C4: posting to a channel that is not in the registry does NOT fail with the
`Have not joined` error: `this.channels[channelName].feed` (Orbit.js 266) is a
property read on `undefined`, which throws a `TypeError` before the guard on
line 267 is reached. `send` with an active session, `_postMessage` and
`_getChannelFeed` all surface that `TypeError`, which is a different failure
from the claimed `ChannelNotJoined` rejection. -/
theorem c4_unjoined_post_typeerror :
    send stConnected "general" "hi" 0 = .error .typeError ∧
    postMessage stConnected "general" { content := "hi", meta := [] } = .error .typeError ∧
    getChannelFeed stConnected "general" = .error .typeError ∧
    JsError.typeError ≠ JsError.error "Have not joined #general" :=
  ⟨rfl, rfl, rfl, by decide⟩

/-- C5: the first `connect` does start the poller (timer `1` is running), but
`disconnect` clears the interval without resetting `_pollPeersTimer`
(Orbit.js 112), so after a second successful `connect` the guard in
`_startPollingForPeers` (Orbit.js 282) sees the stale handle and starts nothing:
the reconnected instance is online with NO active polling timer, contrary to
the claim that polling resumes. -/
theorem c5_reconnect_poller_not_restarted :
    stConnected.activeTimers = [1] ∧
    stConnected.pollPeersTimer = some 1 ∧
    stReconnected.orbitdb = some 2 ∧
    stReconnected.pollPeersTimer = some 1 ∧
    stReconnected.activeTimers = [] := ⟨rfl, rfl, rfl, rfl, rfl⟩

/-- A 3000-character message. -/
def longMsg : String := String.mk (List.replicate 3000 (Char.ofNat 97))

/-- C6: for a connected session and joined channel, `send` stores a record whose
content is the first 2048 characters of the message (`message.substring(0, 2048)`,
Orbit.js 168): a 3000-character input is stored with content length exactly 2048,
an input of at most 2048 characters is stored unchanged, and the metadata carries
`type = text`, `from` = the current profile and `ts` = the current time. -/
theorem c6_send_truncates (st : OrbitState) (name msg : String) (now : Nat)
    (u : User) (ch : Channel)
    (hu : st.user = some u) (hch : alGet st.channels name = some ch)
    (hname : name ≠ "") (hmsg : msg ≠ "") :
    ∃ data, send st name msg now = .ok data ∧
      data.content = substringTo msg 2048 ∧
      (msg.length ≤ 2048 → data.content = msg) ∧
      (msg.length = 3000 → data.content.length = 2048) ∧
      alGet data.meta "from" = some (.profile u.profile) ∧
      alGet data.meta "type" = some (.str "text") ∧
      alGet data.meta "ts" = some (.nat now) := by
  refine ⟨_, send_ok st name msg now u ch hu hch hname hmsg, rfl, ?_, ?_, rfl, rfl, rfl⟩
  · exact fun h => substringTo_of_le msg 2048 h
  · intro h
    rw [substringTo_length, h]
    rfl

/-- C6, witness: sending the 3000-character message in the joined `alice`
session yields a truncated record with the expected metadata. -/
theorem c6_send_truncates_witness :
    ∃ data, send stJoined "general" longMsg 42 = .ok data ∧
      data.content = substringTo longMsg 2048 ∧
      (longMsg.length ≤ 2048 → data.content = longMsg) ∧
      (longMsg.length = 3000 → data.content.length = 2048) ∧
      alGet data.meta "from" = some (.profile aliceUser.profile) ∧
      alGet data.meta "type" = some (.str "text") ∧
      alGet data.meta "ts" = some (.nat 42) :=
  c6_send_truncates stJoined "general" longMsg 42 aliceUser
    { name := "general", feed := { id := 7 } } rfl rfl (by decide) (by decide)

/-- C7: `leave(name)` emits `left(name)` unconditionally (Orbit.js 157 runs
outside the `if`); when no channel is registered for `name` it is otherwise a
no-op — it cannot fail and leaves every registry field unchanged — and when the
channel exists its feed is closed and the entry removed from the registry. -/
theorem c7_leave_unconditional_left (st : OrbitState) (name : String) :
    (alGet st.channels name = none →
      leave st name = { st with events := st.events ++ [.left name] }) ∧
    (∀ ch, alGet st.channels name = some ch →
      leave st name = { st with closedFeeds := st.closedFeeds ++ [ch.feed.id],
                                channels := alDel st.channels name,
                                events := st.events ++ [.left name] }) :=
  ⟨fun h => leave_absent st name h, fun ch h => leave_present st name ch h⟩

/-- C7, witness: leaving `general` before joining (absent case, `left` still
emitted, state otherwise untouched) and after joining (feed `7` closed, entry
removed). -/
theorem c7_leave_unconditional_left_witness :
    leave stConnected "general" =
      { stConnected with events := stConnected.events ++ [.left "general"] } ∧
    leave stJoined "general" =
      { stJoined with closedFeeds := stJoined.closedFeeds ++ [7],
                      channels := alDel stJoined.channels "general",
                      events := stJoined.events ++ [.left "general"] } :=
  ⟨(c7_leave_unconditional_left stConnected "general").1 rfl,
   (c7_leave_unconditional_left stJoined "general").2
     { name := "general", feed := { id := 7 } } rfl⟩

/-- C1: join coalescing. From a connected state with `name` neither registered
nor pending, `n + 1` concurrently initiated `join(name)` calls all receive the
very same shared promise, exactly one log-open call is issued (`openCalls` grows
by exactly one entry, for `name`), and when it completes every waiter receives
the identical channel now held in the registry, `joined` is emitted exactly
once, the pending entry is gone, key-uniqueness of both maps is preserved, and a
later `join(name)` resolves immediately with that same channel. -/
theorem c1_join_coalescing (st : OrbitState) (name : String) (n : Nat) (feed : Feed)
    (hdl : Nat) (hn : name ≠ "") (hdb : st.orbitdb = some hdl)
    (hch : alGet st.channels name = none) (hq : alGet st.joiningQueue name = none)
    (hndc : (alKeys st.channels).Nodup) (hndq : (alKeys st.joiningQueue).Nodup) :
    (joinStartN st name (n + 1)).2 =
      List.replicate (n + 1) (.sharedPromise st.nextId) ∧
    (joinStartN st name (n + 1)).1.openCalls = st.openCalls ++ [(st.nextId + 1, name)] ∧
    (joinComplete (joinStartN st name (n + 1)).1 name feed).2 =
      some { name := name, feed := feed } ∧
    alGet (joinComplete (joinStartN st name (n + 1)).1 name feed).1.channels name =
      some { name := name, feed := feed } ∧
    (joinComplete (joinStartN st name (n + 1)).1 name feed).1.events =
      st.events ++ [.joined name] ∧
    alGet (joinComplete (joinStartN st name (n + 1)).1 name feed).1.joiningQueue name =
      none ∧
    (alKeys (joinComplete (joinStartN st name (n + 1)).1 name feed).1.channels).Nodup ∧
    (alKeys (joinComplete (joinStartN st name (n + 1)).1 name feed).1.joiningQueue).Nodup ∧
    (joinStart (joinComplete (joinStartN st name (n + 1)).1 name feed).1 name).2 =
      .resolvedChannel { name := name, feed := feed } := by
  have hfresh := joinStart_fresh_connected st name hdl hn hdb hch hq
  have hq1 : alGet (joinStart st name).1.joiningQueue name =
      some (st.nextId, .opening (st.nextId + 1)) := by
    rw [hfresh]
    exact alGet_alSet_self _ _ _
  have hc1 : alGet (joinStart st name).1.channels name = none := by
    rw [hfresh]
    exact hch
  have hr2 : (joinStart st name).2 = .sharedPromise st.nextId := by
    rw [hfresh]
  have hN : joinStartN st name (n + 1) =
      ((joinStart st name).1, List.replicate (n + 1) (.sharedPromise st.nextId)) := by
    have hshared := joinStartN_shared n (joinStart st name).1 name st.nextId
      (.opening (st.nextId + 1)) hn hc1 hq1
    simp only [joinStartN]
    rw [hshared, hr2, List.replicate_succ]
  have hcomp := joinComplete_opening (joinStart st name).1 name feed st.nextId
    (st.nextId + 1) hq1
  have hN1 : (joinStartN st name (n + 1)).1 = (joinStart st name).1 := by rw [hN]
  have hN2 : (joinStartN st name (n + 1)).2 =
      List.replicate (n + 1) (.sharedPromise st.nextId) := by rw [hN]
  rw [hN1, hN2, hcomp, hfresh]
  refine ⟨rfl, rfl, rfl, alGet_alSet_self _ _ _, rfl, alGet_alDel_self _ _, ?_, ?_, ?_⟩
  · exact nodup_alKeys_alSet _ _ _ hndc
  · exact nodup_alKeys_alDel _ _ (nodup_alKeys_alSet _ _ _ hndq)
  · simp [joinStart, hn, alGet_alSet_self]

/-- C1, witness: three concurrent joins of `general` on the fresh `alice`
session, completed with the feed `7`. -/
theorem c1_join_coalescing_witness :
    (joinStartN stConnected "general" 3).2 =
      List.replicate 3 (.sharedPromise stConnected.nextId) ∧
    (joinStartN stConnected "general" 3).1.openCalls =
      stConnected.openCalls ++ [(stConnected.nextId + 1, "general")] ∧
    (joinComplete (joinStartN stConnected "general" 3).1 "general" { id := 7 }).2 =
      some { name := "general", feed := { id := 7 } } ∧
    alGet (joinComplete (joinStartN stConnected "general" 3).1 "general"
        { id := 7 }).1.channels "general" =
      some { name := "general", feed := { id := 7 } } ∧
    (joinComplete (joinStartN stConnected "general" 3).1 "general" { id := 7 }).1.events =
      stConnected.events ++ [.joined "general"] ∧
    alGet (joinComplete (joinStartN stConnected "general" 3).1 "general"
        { id := 7 }).1.joiningQueue "general" = none ∧
    (alKeys (joinComplete (joinStartN stConnected "general" 3).1 "general"
        { id := 7 }).1.channels).Nodup ∧
    (alKeys (joinComplete (joinStartN stConnected "general" 3).1 "general"
        { id := 7 }).1.joiningQueue).Nodup ∧
    (joinStart (joinComplete (joinStartN stConnected "general" 3).1 "general"
        { id := 7 }).1 "general").2 =
      .resolvedChannel { name := "general", feed := { id := 7 } } :=
  c1_join_coalescing stConnected "general" 2 { id := 7 } 0 (by decide) rfl rfl rfl
    (by decide) (by decide)

/-- A buffer source whose caller metadata overrides `type`. -/
def srcBufOverride : FileSource :=
  { filename := some "a.txt", directory := none, buffer := some [1, 2, 3],
    meta := some [("type", .str "directory")] }

/-- C8, counterexample: a buffer source does NOT always yield `meta.type = file`:
`Object.assign` (Orbit.js 235-243) applies `source.meta` last, so a caller-supplied
`meta.type` wins, and this buffer submission is stored with `meta.type = directory`. -/
theorem c8_counterexample :
    (addFile stJoined "general" (some srcBufOverride)
        [{ hash := "Qm1", path := "a.txt" }] 5).map (fun d => alGet d.meta "type") =
      .ok (some (.str "directory")) := rfl

/-- C8, amended: for sources whose caller metadata supplies no `type` override,
the claim holds: a buffer source (buffer plus truthy filename) always yields
`meta.type = file` with the first entry's identifier as content; a path source
whose first returned entry's last path segment differs from the expected leaf
name yields `meta.type = directory` with the last entry's identifier as content,
and otherwise `meta.type = file` with the first entry's identifier. (With an
override, the caller's `type` wins — see the counterexample and C10.) -/
theorem c8_addfile_type_heuristic (st : OrbitState) (cn : String) (source : FileSource)
    (e0 : IpfsEntry) (rest : List IpfsEntry) (now : Nat) (u : User) (ch : Channel)
    (hu : st.user = some u) (hch : alGet st.channels cn = some ch) (hcn : cn ≠ "")
    (hsrc : (strTruthy source.filename || strTruthy source.directory) = true)
    (hnotype : alGet (source.meta.getD []) "type" = none) :
    ((source.buffer.isSome && strTruthy source.filename) = true →
      ∃ d, addFile st cn (some source) (e0 :: rest) now = .ok d ∧
        alGet d.meta "type" = some (.str "file") ∧ d.content = e0.hash) ∧
    ((source.buffer.isSome && strTruthy source.filename) = false →
      lastSegment e0.path ≠ expectedLeaf source →
      ∃ d, addFile st cn (some source) (e0 :: rest) now = .ok d ∧
        alGet d.meta "type" = some (.str "directory") ∧
        d.content = (lastD e0 (e0 :: rest)).hash) ∧
    ((source.buffer.isSome && strTruthy source.filename) = false →
      lastSegment e0.path = expectedLeaf source →
      ∃ d, addFile st cn (some source) (e0 :: rest) now = .ok d ∧
        alGet d.meta "type" = some (.str "file") ∧ d.content = e0.hash) := by
  have hunf := addFile_unfold st cn source e0 rest now u hu hsrc
  refine ⟨?_, ?_, ?_⟩
  · intro hb
    have hdir : uploadIsDir source e0 = false := by simp [uploadIsDir, hb]
    have hhash : uploadHash source e0 rest = e0.hash := by simp [uploadHash, hb]
    refine ⟨_, hunf.trans (postMessage_ok st cn _ ch hcn hch), ?_, ?_⟩
    · rw [addFileData_type _ _ _ _ _ _ _ hnotype, hdir]
      rfl
    · show uploadHash source e0 rest = e0.hash
      exact hhash
  · intro hb hd
    have hdir : uploadIsDir source e0 = true := by
      simp [uploadIsDir, hb, bne_iff_ne, hd]
    have hhash : uploadHash source e0 rest = (lastD e0 (e0 :: rest)).hash := by
      simp [uploadHash, hb, bne_iff_ne, hd]
    refine ⟨_, hunf.trans (postMessage_ok st cn _ ch hcn hch), ?_, ?_⟩
    · rw [addFileData_type _ _ _ _ _ _ _ hnotype, hdir]
      rfl
    · show uploadHash source e0 rest = (lastD e0 (e0 :: rest)).hash
      exact hhash
  · intro hb hd
    have hdir : uploadIsDir source e0 = false := by simp [uploadIsDir, hb, hd]
    have hhash : uploadHash source e0 rest = e0.hash := by simp [uploadHash, hb, hd]
    refine ⟨_, hunf.trans (postMessage_ok st cn _ ch hcn hch), ?_, ?_⟩
    · rw [addFileData_type _ _ _ _ _ _ _ hnotype, hdir]
      rfl
    · show uploadHash source e0 rest = e0.hash
      exact hhash

/-- A plain buffer source (no meta). -/
def srcBufPlain : FileSource :=
  { filename := some "a.txt", directory := none, buffer := some [1], meta := none }

/-- A plain path source (no buffer, no meta). -/
def srcPathPlain : FileSource :=
  { filename := some "b.txt", directory := none, buffer := none, meta := none }

/-- C8, witness: the three branches on the joined `alice` session — buffer
ingestion of `a.txt`, a path response whose first entry leaf `x` differs from
`b.txt` (directory), and one whose first entry leaf matches (file). -/
theorem c8_addfile_type_heuristic_witness :
    (∃ d, addFile stJoined "general" (some srcBufPlain)
        [{ hash := "QmA", path := "a.txt" }] 5 = .ok d ∧
      alGet d.meta "type" = some (.str "file") ∧ d.content = "QmA") ∧
    (∃ d, addFile stJoined "general" (some srcPathPlain)
        [{ hash := "Qm1", path := "dir/x" }, { hash := "Qm2", path := "b.txt" }] 5 = .ok d ∧
      alGet d.meta "type" = some (.str "directory") ∧
      d.content = "Qm2") ∧
    (∃ d, addFile stJoined "general" (some srcPathPlain)
        [{ hash := "Qm1", path := "b.txt" }, { hash := "Qm2", path := "z" }] 5 = .ok d ∧
      alGet d.meta "type" = some (.str "file") ∧ d.content = "Qm1") := by
  refine ⟨?_, ?_, ?_⟩
  · exact (c8_addfile_type_heuristic stJoined "general" srcBufPlain
      { hash := "QmA", path := "a.txt" } [] 5 aliceUser
      { name := "general", feed := { id := 7 } } rfl rfl (by decide) (by decide)
      (by decide)).1 (by decide)
  · exact (c8_addfile_type_heuristic stJoined "general" srcPathPlain
      { hash := "Qm1", path := "dir/x" } [{ hash := "Qm2", path := "b.txt" }] 5 aliceUser
      { name := "general", feed := { id := 7 } } rfl rfl (by decide) (by decide)
      (by decide)).2.1 (by decide) (by decide)
  · exact (c8_addfile_type_heuristic stJoined "general" srcPathPlain
      { hash := "Qm1", path := "b.txt" } [{ hash := "Qm2", path := "z" }] 5 aliceUser
      { name := "general", feed := { id := 7 } } rfl rfl (by decide) (by decide)
      (by decide)).2.2 (by decide) (by decide)

/-- C10: caller-supplied `source.meta` fields override every computed default in
`addFile`, not only `name` and `size`: `Object.assign` (Orbit.js 235-243) applies
`source.meta` last, so whenever the stored record exists and `source.meta` binds
`type`, `from` or `ts`, the stored metadata carries the caller value in place of
the computed content type, the author profile or the generated timestamp. -/
theorem c10_meta_overrides (st : OrbitState) (cn : String) (source : FileSource)
    (e0 : IpfsEntry) (rest : List IpfsEntry) (now : Nat) (u : User) (d : PostData)
    (sm : List (String × MetaValue))
    (hu : st.user = some u)
    (hsrc : (strTruthy source.filename || strTruthy source.directory) = true)
    (hm : source.meta = some sm) (hnd : (alKeys sm).Nodup)
    (hok : addFile st cn (some source) (e0 :: rest) now = .ok d) :
    (∀ v, alGet sm "type" = some v → alGet d.meta "type" = some v) ∧
    (∀ v, alGet sm "from" = some v → alGet d.meta "from" = some v) ∧
    (∀ v, alGet sm "ts" = some v → alGet d.meta "ts" = some v) := by
  rw [addFile_unfold st cn source e0 rest now u hu hsrc] at hok
  unfold postMessage at hok
  rcases hfeed : getChannelFeed st cn with e | f
  · rw [hfeed] at hok
    exact absurd hok (by simp)
  · rw [hfeed] at hok
    simp only [Except.ok.injEq] at hok
    subst hok
    rw [hm] at *
    simp only [Option.getD_some, addFileData]
    exact ⟨fun v hv => objAssign_get_some _ _ _ _ hnd hv,
      fun v hv => objAssign_get_some _ _ _ _ hnd hv,
      fun v hv => objAssign_get_some _ _ _ _ hnd hv⟩

/-- The caller metadata for the C10 witness: overrides `type`, `from` and `ts`. -/
def smOverride : List (String × MetaValue) :=
  [("type", .str "x"), ("from", .str "me"), ("ts", .nat 77)]

/-- A buffer source carrying `smOverride`. -/
def srcOverrideAll : FileSource :=
  { filename := some "a.txt", directory := none, buffer := some [1],
    meta := some smOverride }

/-- The record stored for `srcOverrideAll` in the joined `alice` session. -/
def dOverride : PostData :=
  (addFile stJoined "general" (some srcOverrideAll)
    [{ hash := "Qm", path := "a.txt" }] 9).toOption.getD { content := "", meta := [] }

/-- C10, witness: the overriding source stores `type = x`, `from = me`, `ts = 77`
in place of the computed defaults. -/
theorem c10_meta_overrides_witness :
    alGet dOverride.meta "type" = some (.str "x") ∧
    alGet dOverride.meta "from" = some (.str "me") ∧
    alGet dOverride.meta "ts" = some (.nat 77) := by
  have h := c10_meta_overrides stJoined "general" srcOverrideAll
    { hash := "Qm", path := "a.txt" } [] 9 aliceUser dOverride smOverride
    rfl (by decide) rfl (by decide) rfl
  exact ⟨h.1 _ rfl, h.2.1 _ rfl, h.2.2 _ rfl⟩

/-- C9: when the log-open fails during `join(name)` the pending entry is stuck
forever. Part one: calling `join` while disconnected makes `this._orbitdb.log`
throw inside the executor (Orbit.js 135), leaving a rejected promise in the
queue, with no open call issued and no event emitted. Part two: an in-flight
open call that rejects leaves the entry stuck (the `.then` has no rejection
handler), again without touching open calls or events. Part three: a stuck
entry survives ANY sequence of subsequent operations — it is never removed, no
`joined(name)` is ever emitted, no fresh log-open for `name` is ever issued,
and every later `join(name)` returns that very same stuck promise without
changing the state. -/
theorem c9_stuck_join_queue :
    (∀ st : OrbitState, ∀ name : String, name ≠ "" → st.orbitdb = none →
      alGet st.channels name = none → alGet st.joiningQueue name = none →
      (joinStart st name).2 = .sharedPromise st.nextId ∧
      stuckEntry (joinStart st name).1 name st.nextId = true ∧
      (joinStart st name).1.openCalls = st.openCalls ∧
      (joinStart st name).1.events = st.events) ∧
    (∀ st : OrbitState, ∀ name : String, ∀ pid cid : Nat,
      alGet st.joiningQueue name = some (pid, .opening cid) →
      alGet st.channels name = none →
      stuckEntry (joinOpenFailed st name) name pid = true ∧
      (joinOpenFailed st name).openCalls = st.openCalls ∧
      (joinOpenFailed st name).events = st.events) ∧
    (∀ st : OrbitState, ∀ name : String, ∀ pid : Nat, ∀ steps : List Step,
      name ≠ "" → stuckEntry st name pid = true →
      stuckEntry (run st steps) name pid = true ∧
      openCallsFor (run st steps) name = openCallsFor st name ∧
      countJoined (run st steps).events name = countJoined st.events name ∧
      joinStart (run st steps) name = (run st steps, .sharedPromise pid)) := by
  refine ⟨?_, ?_, ?_⟩
  · intro st name hn hdb hch hq
    rw [joinStart_fresh_disconnected st name hn hdb hch hq]
    exact ⟨rfl, stuckEntry_intro _ _ _ _ (alGet_alSet_self _ _ _) rfl hch, rfl, rfl⟩
  · intro st name pid cid hq hch
    rw [joinOpenFailed_opening st name pid cid hq]
    exact ⟨stuckEntry_intro _ _ _ _ (alGet_alSet_self _ _ _) rfl hch, rfl, rfl⟩
  · intro st name pid steps hn h
    obtain ⟨g1, g2, g3⟩ := stuck_preserved_run steps st name pid h
    exact ⟨g1, g2, g3, joinStart_of_stuck _ _ _ hn g1⟩

/-- The state after `join("general")` was called while disconnected: the queue
holds the born-rejected promise `0`. -/
def stStuck : OrbitState := (joinStart initialState "general").1

/-- The state after `join("general")` on the connected session, before the open
call `3` settles. -/
def stOpening : OrbitState := (joinStart stConnected "general").1

/-- A sample trace run against the stuck instance: a reconnect, further join
attempts, an unrelated completion, a disconnect. -/
def sampleSteps : List Step :=
  [Step.doConnect (.str "alice"), Step.jStart "general",
   Step.jComplete "general" { id := 5 }, Step.doDisconnect true,
   Step.jStart "general"]

/-- C9, witness: the disconnected join of `general` gets stuck promise `0`; a
rejecting open call on the connected session gets entry `2` stuck; and across
the sample trace the stuck entry `0` persists, no open call or `joined` event
for `general` appears, and `join("general")` still returns promise `0`. -/
theorem c9_stuck_join_queue_witness :
    ((joinStart initialState "general").2 = .sharedPromise initialState.nextId ∧
     stuckEntry (joinStart initialState "general").1 "general" initialState.nextId = true ∧
     (joinStart initialState "general").1.openCalls = initialState.openCalls ∧
     (joinStart initialState "general").1.events = initialState.events) ∧
    (stuckEntry (joinOpenFailed stOpening "general") "general" 2 = true ∧
     (joinOpenFailed stOpening "general").openCalls = stOpening.openCalls ∧
     (joinOpenFailed stOpening "general").events = stOpening.events) ∧
    (stuckEntry (run stStuck sampleSteps) "general" 0 = true ∧
     openCallsFor (run stStuck sampleSteps) "general" = openCallsFor stStuck "general" ∧
     countJoined (run stStuck sampleSteps).events "general" =
       countJoined stStuck.events "general" ∧
     joinStart (run stStuck sampleSteps) "general" =
       (run stStuck sampleSteps, .sharedPromise 0)) :=
  ⟨c9_stuck_join_queue.1 initialState "general" (by decide) rfl rfl rfl,
   c9_stuck_join_queue.2.1 stOpening "general" 2 3 rfl rfl,
   c9_stuck_join_queue.2.2 stStuck "general" 0 sampleSteps (by decide) rfl⟩

end OrbitCore







